import Mathlib

/-!
Verification of the gradient-problem slice of the ceres-solver fork:
`first_order_function.h`, `gradient_problem.h` and
`internal/ceres/gradient_problem_evaluator.h`.

Doubles are embedded as rationals, raw `double*` vectors as `List ℚ`, null
pointers as `Option`, and a fatal `CHECK` failure as the `none` outcome of an
`Option`-valued evaluation.
-/

namespace CeresGP

/-- Euclidean dot product of two coefficient vectors. -/
def dot (a b : List ℚ) : ℚ := (List.zipWith (· * ·) a b).sum

/-- One entry of a `Statistics()` map: `ceres::internal::CallStatistics`
(call count and accumulated wall time). -/
structure CallStatistics where
  calls : ℕ
  time : ℚ
deriving DecidableEq, Repr

/-- Modelled from the spec: `ExecutionSummary` (not under src/) accumulates,
per label, a call count and a total elapsed time; each `ScopedExecutionTimer`
adds one call and its elapsed time under its label when its scope ends
(spec section 4.4 "two layers of wall-clock accounting" and section 6
"Statistics() -> mapping from label to call_count, total_elapsed_time"). -/
def updateStats : List (String × CallStatistics) → String → ℚ →
    List (String × CallStatistics)
  | [], label, t => [(label, ⟨1, t⟩)]
  | (l, c) :: rest, label, t =>
      if l = label then (l, ⟨c.calls + 1, c.time + t⟩) :: rest
      else (l, c) :: updateStats rest label t

/-- Look a label up in a statistics map; absent labels read as zero. -/
def lookupStats : List (String × CallStatistics) → String → CallStatistics
  | [], _ => ⟨0, 0⟩
  | (l, c) :: rest, label => if l = label then c else lookupStats rest label

/-- One stored history slot as yielded by `getRightMultiplyContext`: the
parameter step `delta_x`, the gradient change `delta_gradient`, and their
precomputed dot product (struct `RightMultiplyContext`,
first_order_function.h lines 49-54).  The callback protocol yields one such
slot per call until it reports invalid; the list is the full yielded
sequence, newest first. -/
structure HistoryPair where
  delta_x : List ℚ
  delta_gradient : List ℚ
  delta_x_dot_delta_gradient : ℚ
deriving DecidableEq, Repr

/-- A user objective: `ceres::FirstOrderFunction` (first_order_function.h).
`evaluate params gradientRequested` returns `none` when the C++ `Evaluate`
returns `false`, and otherwise the cost together with the gradient when one
was requested.  The optional capabilities are carried as fields so that a
particular implementation may override them; an implementation that does not
override them uses the default bodies below. -/
structure FirstOrderFunction where
  numParameters : ℕ
  evaluate : List ℚ → Bool → Option (ℚ × Option (List ℚ))
  evaluateGradientNorms : List ℚ → List ℚ → Option (ℚ × ℚ)
  nextDirection : List ℚ → List HistoryPair → ℚ → Bool → Option (List ℚ × ℚ)

/-- Default body of `FirstOrderFunction::EvaluateGradientNorms`
(first_order_function.h, lines 67-72): the function body is `return false;`,
so the out-parameters `gradient_squared_norm` and `gradient_max_norm` are
returned exactly as they came in. -/
def defaultEvaluateGradientNorms (x gradient : List ℚ)
    (gradient_squared_norm gradient_max_norm : ℚ) : Bool × ℚ × ℚ :=
  (false, gradient_squared_norm, gradient_max_norm)

/-- Default body of `FirstOrderFunction::NextDirection`
(first_order_function.h, lines 74-87): the body is `return false;`, so the
out-parameters `approximate_eigenvalue_scale_`, `search_direction` and
`search_direction_dot_current_gradient` are returned exactly as they came
in. -/
def defaultNextDirection (previous_search_direction : List ℚ)
    (previous_step_size : ℚ) (current_gradient previous_gradient : List ℚ)
    (approximate_eigenvalue_scale : ℚ) (search_direction : List ℚ)
    (use_approximate_eigenvalue_scaling : Bool)
    (search_direction_dot_current_gradient : ℚ) :
    Bool × ℚ × List ℚ × ℚ :=
  (false, approximate_eigenvalue_scale, search_direction,
    search_direction_dot_current_gradient)

/-- `ceres::LocalParameterization` as a retraction: a tangent dimension and a
`Plus` map from an ambient point and a tangent delta to an ambient point. -/
structure LocalParameterization where
  localSize : ℕ
  plus : List ℚ → List ℚ → List ℚ

/-- `ceres::GradientProblem` (gradient_problem.h): a `FirstOrderFunction`
composed with an optional `LocalParameterization`. -/
structure GradientProblem where
  function : FirstOrderFunction
  parameterization : Option LocalParameterization

def GradientProblem.NumParameters (p : GradientProblem) : ℕ :=
  p.function.numParameters

def GradientProblem.NumLocalParameters (p : GradientProblem) : ℕ :=
  match p.parameterization with
  | some param => param.localSize
  | none => p.function.numParameters

/-- Modelled from the spec: `GradientProblem::Evaluate` (its body is in
gradient_problem.cc, which is not under src/) "forwards to the owned
ObjectiveContract" (spec section 4.3). -/
def GradientProblem.Evaluate (p : GradientProblem) (parameters : List ℚ)
    (gradientRequested : Bool) : Option (ℚ × Option (List ℚ)) :=
  p.function.evaluate parameters gradientRequested

/-- Modelled from the spec: `GradientProblem::Plus` (its body is in
gradient_problem.cc, which is not under src/) "forwards to owned Retraction,
or identity-add fallback": when no parameterization is configured,
`Plus(x, delta)[i] = x[i] + delta[i]` over the full ambient space
(spec sections 4.2, 4.3 and 8). -/
def GradientProblem.Plus (p : GradientProblem) (x delta : List ℚ) : List ℚ :=
  match p.parameterization with
  | some param => param.plus x delta
  | none => List.zipWith (· + ·) x delta

/-- Modelled from the spec: `GradientProblem::EvaluateGradientNorms` (its
body is in gradient_problem.cc, which is not under src/) "forwards to the
contract's capability; if unsupported ... it signals unsupported"
(spec section 4.3).  `none` is the C++ `false` (unsupported) return. -/
def GradientProblem.EvaluateGradientNorms (p : GradientProblem)
    (x gradient : List ℚ) : Option (ℚ × ℚ) :=
  p.function.evaluateGradientNorms x gradient

/-- Modelled from the spec: `GradientProblem::NextDirection` (its body is in
gradient_problem.cc, which is not under src/) "forwards to the contract's
optional capability" (spec section 4.3).  The capability receives the
current gradient, the history the right-multiply callback yields, the
approximate eigenvalue scale and the scaling flag; `none` is the C++ `false`
return. -/
def GradientProblem.NextDirection (p : GradientProblem)
    (current_gradient : List ℚ) (history : List HistoryPair)
    (approximate_eigenvalue_scale : ℚ)
    (use_approximate_eigenvalue_scaling : Bool) : Option (List ℚ × ℚ) :=
  p.function.nextDirection current_gradient history
    approximate_eigenvalue_scale use_approximate_eigenvalue_scaling

/-- Placeholder for `ceres::internal::SparseMatrix`: the adapter only ever
produces the null matrix, so the carrier is irrelevant. -/
def SparseMatrix : Type := List (List ℚ)

/-- `ceres::internal::GradientProblemEvaluator`
(gradient_problem_evaluator.h): the adapted problem together with the
telemetry state `execution_summary_`. -/
structure GradientProblemEvaluator where
  problem : GradientProblem
  execution_summary : List (String × CallStatistics)

/-- A freshly constructed evaluator: the summary starts empty. -/
def GradientProblemEvaluator.make (p : GradientProblem) :
    GradientProblemEvaluator :=
  ⟨p, []⟩

/-- `GradientProblemEvaluator::CreateJacobian` (line 51): `return nullptr`. -/
def GradientProblemEvaluator.CreateJacobian (_ : GradientProblemEvaluator) :
    Option SparseMatrix :=
  none

/-- `GradientProblemEvaluator::NumResiduals` (line 121): `return 1`. -/
def GradientProblemEvaluator.NumResiduals (_ : GradientProblemEvaluator) : ℕ :=
  1

/-- `GradientProblemEvaluator::NumParameters` (line 115). -/
def GradientProblemEvaluator.NumParameters (e : GradientProblemEvaluator) : ℕ :=
  e.problem.NumParameters

/-- `GradientProblemEvaluator::NumEffectiveParameters` (lines 117-119). -/
def GradientProblemEvaluator.NumEffectiveParameters
    (e : GradientProblemEvaluator) : ℕ :=
  e.problem.NumLocalParameters

/-- `GradientProblemEvaluator::Plus` (lines 73-77): forwards to
`problem_.Plus`; the C++ returns the bool from the problem, which the
modelled `GradientProblem::Plus` always satisfies. -/
def GradientProblemEvaluator.Plus (e : GradientProblemEvaluator)
    (state delta : List ℚ) : List ℚ :=
  e.problem.Plus state delta

/-- `GradientProblemEvaluator::Statistics` (lines 123-125): returns the
accumulated summary. -/
def GradientProblemEvaluator.Statistics (e : GradientProblemEvaluator) :
    List (String × CallStatistics) :=
  e.execution_summary

/-- `GradientProblemEvaluator::Evaluate` (lines 52-71).  The outer `Option`
is the fatal `CHECK(jacobian == NULL)`: a present jacobian halts execution
(`none`); otherwise two scoped timers record `tTotal` under
"Evaluator::Total" and `tCall` under "Evaluator::Residual" (gradient absent)
or "Evaluator::Jacobian" (gradient requested), the call forwards to
`problem_.Evaluate`, and the `residuals` buffer is never touched.  The inner
`Option (ℚ × Option (List ℚ))` is the forwarded evaluation result. -/
def GradientProblemEvaluator.Evaluate (e : GradientProblemEvaluator)
    (state residuals : List ℚ) (gradientRequested jacobianPresent : Bool)
    (tTotal tCall : ℚ) :
    Option (Option (ℚ × Option (List ℚ)) × List ℚ × GradientProblemEvaluator) :=
  if jacobianPresent then none
  else
    let result := e.problem.Evaluate state gradientRequested
    let label :=
      if gradientRequested then "Evaluator::Jacobian" else "Evaluator::Residual"
    let s1 := updateStats e.execution_summary label tCall
    let s2 := updateStats s1 "Evaluator::Total" tTotal
    some (result, residuals, { e with execution_summary := s2 })

/-- Modelled from the spec: first pass of the two-loop recursion
(section 4.5, step 1), newest to oldest over the already-screened pairs.
Maintains the working vector `q` (initially the current gradient) and, for
each pair with `ρ = 1/(s·y)`, computes `α = ρ·(s·q)` and updates
`q ← q − α·y`; returns the final `q` and every pair with its `α`, newest
first. -/
def lbfgsFirstLoop : List ℚ → List HistoryPair → List ℚ × List (HistoryPair × ℚ)
  | q, [] => (q, [])
  | q, p :: older =>
      let ρ := 1 / p.delta_x_dot_delta_gradient
      let α := ρ * dot p.delta_x q
      let q' := List.zipWith (fun qi yi => qi - α * yi) q p.delta_gradient
      let rest := lbfgsFirstLoop q' older
      (rest.1, (p, α) :: rest.2)

/-- Modelled from the spec: second pass of the two-loop recursion
(section 4.5, step 3), oldest to newest over the same pairs (the pairs come
newest first, so the older tail is processed before the head): with
`ρ = 1/(s·y)`, `β = ρ·(y·r)` and `r ← r + (α − β)·s`. -/
def lbfgsSecondLoop : List ℚ → List (HistoryPair × ℚ) → List ℚ
  | r, [] => r
  | r, (p, α) :: older =>
      let r' := lbfgsSecondLoop r older
      let ρ := 1 / p.delta_x_dot_delta_gradient
      let β := ρ * dot p.delta_gradient r'
      List.zipWith (fun ri si => ri + (α - β) * si) r' p.delta_x

/-- Modelled from the spec: the quasi-Newton direction update behind the
`NextDirection` capability (the two-loop recursion of section 4.5; its
implementation is not under src/, only the interface of
first_order_function.h is).  Pairs failing the curvature screen
`s·y > ε` are skipped (section 4.5, step 1).  Between the passes `q` is
scaled by the initial inverse-Hessian approximation: the identity, or the
approximate eigenvalue scale when eigenvalue scaling is requested
(section 4.5, step 2); that scale is "a scalar curvature estimate" derived
from accepted history pairs (section 9), so when no pair passes the screen
the approximation is the identity and the edge case of section 4.5 applies
(steepest descent).  Returns the new direction `−r` and the directional
derivative `direction · current_gradient` (section 4.5, step 4). -/
def lbfgsNextDirection (current_gradient : List ℚ) (history : List HistoryPair)
    (approximate_eigenvalue_scale : ℚ)
    (use_approximate_eigenvalue_scaling : Bool) (ε : ℚ) : List ℚ × ℚ :=
  let valid :=
    history.filter (fun p => decide (ε < p.delta_x_dot_delta_gradient))
  let fl := lbfgsFirstLoop current_gradient valid
  let r :=
    if use_approximate_eigenvalue_scaling && !valid.isEmpty then
      fl.1.map (fun qi => approximate_eigenvalue_scale * qi)
    else fl.1
  let r' := lbfgsSecondLoop r fl.2
  let direction := r'.map (fun a => -a)
  (direction, dot direction current_gradient)

/-- The gradient-related slice of `LineSearchMinimizer::State` that
`EvaluateGradientNorms` reads and writes. -/
structure LineSearchState where
  gradient : List ℚ
  gradient_squared_norm : ℚ
  gradient_max_norm : ℚ
deriving DecidableEq, Repr

/-- Largest absolute coefficient of a vector (infinity norm). -/
def maxAbs (v : List ℚ) : ℚ := (v.map (fun a => |a|)).foldr max 0

/-- Modelled from the spec: the base `Evaluator::EvaluateGradientNorms`
(evaluator.h is not under src/) is "a default Euclidean-norm computation
supplied by the shared evaluation infrastructure" (spec section 4.4): it
fills the squared Euclidean norm and the max norm of the state's gradient
and succeeds. -/
def evaluatorBaseGradientNorms (st : LineSearchState) : Bool × LineSearchState :=
  (true,
    { st with
      gradient_squared_norm := dot st.gradient st.gradient
      gradient_max_norm := maxAbs st.gradient })

/-- `GradientProblemEvaluator::EvaluateGradientNorms` (lines 79-89): first
tries `problem_.EvaluateGradientNorms`; only when that capability returns
`false` (here `none`) does it invoke the base evaluator's default.  The
third component records whether the fallback was invoked. -/
def GradientProblemEvaluator.EvaluateGradientNorms
    (e : GradientProblemEvaluator) (x : List ℚ) (st : LineSearchState) :
    Bool × LineSearchState × Bool :=
  match e.problem.EvaluateGradientNorms x st.gradient with
  | some (sq, mx) =>
      (true,
        { st with gradient_squared_norm := sq, gradient_max_norm := mx },
        false)
  | none =>
      let (ok, st') := evaluatorBaseGradientNorms st
      (ok, st', true)

/-- Runs one non-fatal `Evaluate` call (jacobian absent) and keeps the
updated evaluator; the jacobian-present branch cannot be reached here. -/
def evalStep (e : GradientProblemEvaluator) (state residuals : List ℚ)
    (gradientRequested : Bool) (tTotal tCall : ℚ) : GradientProblemEvaluator :=
  match e.Evaluate state residuals gradientRequested false tTotal tCall with
  | some (_, _, e') => e'
  | none => e

/-- `GradientProblemEvaluator::NextDirection` (lines 91-113): forwards every
argument to `problem_.NextDirection`. -/
def GradientProblemEvaluator.NextDirection (e : GradientProblemEvaluator)
    (current_gradient : List ℚ) (history : List HistoryPair)
    (approximate_eigenvalue_scale : ℚ)
    (use_approximate_eigenvalue_scaling : Bool) : Option (List ℚ × ℚ) :=
  e.problem.NextDirection current_gradient history
    approximate_eigenvalue_scale use_approximate_eigenvalue_scaling

/-- The member functions of `GradientProblemEvaluator` other than
`Evaluate`, each with its arguments. -/
inductive ConstOp where
  | plusOp (state delta : List ℚ)
  | gradientNormsOp (x : List ℚ) (st : LineSearchState)
  | nextDirectionOp (g : List ℚ) (history : List HistoryPair) (scale : ℚ)
      (useScaling : Bool)
  | numParametersOp
  | numEffectiveParametersOp
  | numResidualsOp
  | createJacobianOp
  | statisticsOp

/-- Runs one non-`Evaluate` member function on the evaluator, discarding its
result, and returns the evaluator as the call leaves it.  Each of these
member functions only reads the evaluator (`Plus`, `NextDirection`,
`CreateJacobian`, the size getters and `Statistics` are const;
`EvaluateGradientNorms` writes only the caller's line-search state, and its
base-class fallback has no access to the private `execution_summary_`), so
the evaluator comes back unchanged. -/
def applyConstOp (e : GradientProblemEvaluator) : ConstOp →
    GradientProblemEvaluator
  | .plusOp state delta =>
      let _ := e.Plus state delta
      e
  | .gradientNormsOp x st =>
      let _ := e.EvaluateGradientNorms x st
      e
  | .nextDirectionOp g history scale useScaling =>
      let _ := e.NextDirection g history scale useScaling
      e
  | .numParametersOp =>
      let _ := e.NumParameters
      e
  | .numEffectiveParametersOp =>
      let _ := e.NumEffectiveParameters
      e
  | .numResidualsOp =>
      let _ := e.NumResiduals
      e
  | .createJacobianOp =>
      let _ := e.CreateJacobian
      e
  | .statisticsOp =>
      let _ := e.Statistics
      e

/-- A concrete objective used to instantiate the theorems below: two
parameters, zero cost, no gradient output, no optional capabilities. -/
def fofPlain : FirstOrderFunction :=
  ⟨2, fun _ _ => some (0, none), fun _ _ => none, fun _ _ _ _ => none⟩

/-- A `GradientProblem` over `fofPlain` with no parameterization. -/
def gpPlain : GradientProblem := ⟨fofPlain, none⟩

/-- A fresh evaluator over `gpPlain`. -/
def gpePlain : GradientProblemEvaluator := .make gpPlain

/-- A concrete line-search state used to instantiate theorems. -/
def stPlain : LineSearchState := ⟨[3, 4], 7, 7⟩

/-- The statistics map after the two-call scenario of the spec's section 8:
from a fresh evaluator, one gradient-omitted `Evaluate` call (wall times
`t1T` outer, `t1C` inner) followed by one gradient-requested call (`t2T`,
`t2C`). -/
def twoCallSummary (p : GradientProblem) (s1 r1 s2 r2 : List ℚ)
    (t1T t1C t2T t2C : ℚ) : List (String × CallStatistics) :=
  (evalStep (evalStep (GradientProblemEvaluator.make p) s1 r1 false t1T t1C)
      s2 r2 true t2T t2C).Statistics

end CeresGP

namespace CeresGP

/-- C7: `NumResiduals()` returns exactly 1 for every evaluator instance,
whatever the underlying problem's `NumParameters` is. -/
theorem numResiduals_always_one (e : GradientProblemEvaluator) :
    e.NumResiduals = 1 :=
  rfl

/-- C8: `CreateJacobian()` returns the null matrix on every call. -/
theorem createJacobian_always_none (e : GradientProblemEvaluator) :
    e.CreateJacobian = none :=
  rfl

/-- C2: calling the adapter's `Evaluate` with a present jacobian fires the
fatal `CHECK(jacobian == NULL)` (the `none` outcome); with the jacobian
absent the assertion branch is unreachable and evaluation proceeds to a
result. -/
theorem evaluate_jacobian_check (e : GradientProblemEvaluator)
    (state residuals : List ℚ) (gradientRequested : Bool) (tTotal tCall : ℚ) :
    e.Evaluate state residuals gradientRequested true tTotal tCall = none ∧
    (e.Evaluate state residuals gradientRequested false tTotal tCall).isSome =
      true := by
  constructor
  · rfl
  · rfl

/-- C9: on a non-fatal `Evaluate` call (jacobian absent) the `residuals`
buffer is passed through untouched: the call's residuals component equals the
incoming buffer. -/
theorem evaluate_preserves_residuals (e : GradientProblemEvaluator)
    (state residuals : List ℚ) (gradientRequested : Bool) (tTotal tCall : ℚ) :
    (e.Evaluate state residuals gradientRequested false tTotal tCall).map
        (fun r => r.2.1) =
      some residuals := by
  rfl

/-- C5: a `FirstOrderFunction` that does not override the optional
capabilities gets the default bodies, which return `false` for any arguments
and leave every out-parameter exactly as it came in. -/
theorem default_capabilities_unsupported (x gradient d pd pg sd : List ℚ)
    (step scale sq mx dd : ℚ) (useScaling : Bool) :
    defaultEvaluateGradientNorms x gradient sq mx = (false, sq, mx) ∧
    defaultNextDirection d step x pg scale sd useScaling dd =
      (false, scale, sd, dd) :=
  ⟨rfl, rfl⟩

/-- Auxiliary: negating the left vector pointwise negates the dot product. -/
theorem dot_map_neg (a b : List ℚ) :
    dot (a.map fun v => -v) b = -(dot a b) := by
  induction a generalizing b with
  | nil => simp [dot]
  | cons v l ih =>
    cases b with
    | nil => simp [dot]
    | cons w m =>
      have h := ih m
      simp only [dot, List.map_cons, List.zipWith_cons_cons,
        List.sum_cons] at h ⊢
      rw [h]
      ring

/-- C1: when the right-multiply callback yields no pair passing the
curvature screen `s·y > ε` (empty history included), the two-loop recursion
degenerates to steepest descent: the direction is the negated current
gradient and the directional derivative is minus its squared norm. -/
theorem nextDirection_no_valid_pair (g : List ℚ) (history : List HistoryPair)
    (scale ε : ℚ) (useScaling : Bool)
    (h : ∀ p ∈ history, p.delta_x_dot_delta_gradient ≤ ε) :
    lbfgsNextDirection g history scale useScaling ε =
      (g.map fun v => -v, -(dot g g)) := by
  have hvalid :
      history.filter (fun p => decide (ε < p.delta_x_dot_delta_gradient)) =
        [] := by
    rw [List.filter_eq_nil_iff]
    intro p hp
    simpa using h p hp
  simp [lbfgsNextDirection, hvalid, lbfgsFirstLoop, lbfgsSecondLoop,
    dot_map_neg]

/-- Witness for C1: a single stored pair with `s·y = 0` fails the screen at
`ε = 1/100`; the returned direction is `−gradient` and the derivative is
`−‖gradient‖²`. -/
theorem nextDirection_no_valid_pair_witness :
    (∀ p ∈ [(⟨[1], [1], 0⟩ : HistoryPair)],
      p.delta_x_dot_delta_gradient ≤ (1 : ℚ) / 100) ∧
    lbfgsNextDirection [3, 4] [⟨[1], [1], 0⟩] 2 true ((1 : ℚ) / 100) =
      ([-3, -4], -25) := by
  have h : ∀ p ∈ [(⟨[1], [1], 0⟩ : HistoryPair)],
      p.delta_x_dot_delta_gradient ≤ (1 : ℚ) / 100 := by
    intro p hp
    simp only [List.mem_singleton] at hp
    subst hp
    norm_num
  refine ⟨h, ?_⟩
  rw [nextDirection_no_valid_pair [3, 4] [⟨[1], [1], 0⟩] 2 (1 / 100) true h]
  norm_num [dot]

/-- C3: from a fresh evaluator, after one gradient-omitted and one
gradient-requested `Evaluate` call, `Statistics()` holds call count 1 under
"Evaluator::Residual" and under "Evaluator::Jacobian", and call count 2
under "Evaluator::Total" with total elapsed time at least the sum of the two
sub-label times (each inner timer's elapsed time is bounded by its enclosing
total timer's). -/
theorem statistics_after_two_calls (p : GradientProblem)
    (s1 r1 s2 r2 : List ℚ) (t1T t1C t2T t2C : ℚ)
    (h1 : t1C ≤ t1T) (h2 : t2C ≤ t2T) :
    lookupStats (twoCallSummary p s1 r1 s2 r2 t1T t1C t2T t2C)
        "Evaluator::Residual" = ⟨1, t1C⟩ ∧
    lookupStats (twoCallSummary p s1 r1 s2 r2 t1T t1C t2T t2C)
        "Evaluator::Jacobian" = ⟨1, t2C⟩ ∧
    (lookupStats (twoCallSummary p s1 r1 s2 r2 t1T t1C t2T t2C)
        "Evaluator::Total").calls = 2 ∧
    (lookupStats (twoCallSummary p s1 r1 s2 r2 t1T t1C t2T t2C)
          "Evaluator::Residual").time +
        (lookupStats (twoCallSummary p s1 r1 s2 r2 t1T t1C t2T t2C)
          "Evaluator::Jacobian").time ≤
      (lookupStats (twoCallSummary p s1 r1 s2 r2 t1T t1C t2T t2C)
          "Evaluator::Total").time := by
  refine ⟨rfl, rfl, rfl, ?_⟩
  show t1C + t2C ≤ t1T + t2T
  exact add_le_add h1 h2

/-- Witness for C3 at concrete inputs and wall times. -/
theorem statistics_after_two_calls_witness :
    ((1 : ℚ) / 2 ≤ 1 ∧ (1 : ℚ) / 3 ≤ 2) ∧
    lookupStats (twoCallSummary gpPlain [1] [] [2] [] 1 (1 / 2) 2 (1 / 3))
        "Evaluator::Residual" = ⟨1, 1 / 2⟩ ∧
    lookupStats (twoCallSummary gpPlain [1] [] [2] [] 1 (1 / 2) 2 (1 / 3))
        "Evaluator::Jacobian" = ⟨1, 1 / 3⟩ ∧
    (lookupStats (twoCallSummary gpPlain [1] [] [2] [] 1 (1 / 2) 2 (1 / 3))
        "Evaluator::Total").calls = 2 ∧
    (lookupStats (twoCallSummary gpPlain [1] [] [2] [] 1 (1 / 2) 2 (1 / 3))
          "Evaluator::Residual").time +
        (lookupStats (twoCallSummary gpPlain [1] [] [2] [] 1 (1 / 2) 2 (1 / 3))
          "Evaluator::Jacobian").time ≤
      (lookupStats (twoCallSummary gpPlain [1] [] [2] [] 1 (1 / 2) 2 (1 / 3))
          "Evaluator::Total").time :=
  ⟨⟨by norm_num, by norm_num⟩,
    statistics_after_two_calls gpPlain [1] [] [2] [] 1 (1 / 2) 2 (1 / 3)
      (by norm_num) (by norm_num)⟩

/-- C4: the adapter's `EvaluateGradientNorms` invokes the base evaluator's
default Euclidean-norm fallback exactly when the problem's capability
returns `false`; on capability failure it returns the fallback's result, and
on capability success it returns `true` without invoking the fallback. -/
theorem evaluateGradientNorms_fallback (e : GradientProblemEvaluator)
    (x : List ℚ) (st : LineSearchState) :
    ((e.EvaluateGradientNorms x st).2.2 = true ↔
      e.problem.EvaluateGradientNorms x st.gradient = none) ∧
    (e.problem.EvaluateGradientNorms x st.gradient = none →
      e.EvaluateGradientNorms x st =
        ((evaluatorBaseGradientNorms st).1, (evaluatorBaseGradientNorms st).2,
          true)) ∧
    (∀ norms, e.problem.EvaluateGradientNorms x st.gradient = some norms →
      (e.EvaluateGradientNorms x st).1 = true ∧
        (e.EvaluateGradientNorms x st).2.2 = false) := by
  cases hcap : e.problem.EvaluateGradientNorms x st.gradient with
  | none =>
      simp [GradientProblemEvaluator.EvaluateGradientNorms, hcap,
        evaluatorBaseGradientNorms]
  | some nm =>
      obtain ⟨sq, mx⟩ := nm
      simp [GradientProblemEvaluator.EvaluateGradientNorms, hcap]

/-- Witness for C4: over `gpePlain` (whose objective leaves the capability
unsupported) the fallback is taken and its result returned. -/
theorem evaluateGradientNorms_fallback_witness :
    gpePlain.problem.EvaluateGradientNorms [1, 2] stPlain.gradient = none ∧
    gpePlain.EvaluateGradientNorms [1, 2] stPlain =
      ((evaluatorBaseGradientNorms stPlain).1,
        (evaluatorBaseGradientNorms stPlain).2, true) :=
  ⟨rfl, (evaluateGradientNorms_fallback gpePlain [1, 2] stPlain).2.1 rfl⟩

/-- Auxiliary: adding the all-zero delta of matching length is the
identity. -/
theorem zipWith_add_replicate_zero (x : List ℚ) :
    List.zipWith (· + ·) x (List.replicate x.length 0) = x := by
  induction x with
  | nil => rfl
  | cons a l ih => simp [List.replicate_succ, ih]

/-- Auxiliary: coordinatewise reading of `zipWith (+)`. -/
theorem zipWith_add_getD (x delta : List ℚ) (i : ℕ) (hi : i < x.length)
    (hd : i < delta.length) :
    (List.zipWith (· + ·) x delta).getD i 0 =
      x.getD i 0 + delta.getD i 0 := by
  induction x generalizing delta i with
  | nil => simp at hi
  | cons a l ih =>
    cases delta with
    | nil => simp at hd
    | cons b m =>
      cases i with
      | zero => simp
      | succ n =>
        simp only [List.zipWith_cons_cons, List.getD_cons_succ]
        exact ih m n (Nat.lt_of_succ_lt_succ hi) (Nat.lt_of_succ_lt_succ hd)

/-- C6: `Plus(x, 0) = x` for every ambient point (using a configured
parameterization's retraction identity contract when one is present), and
with no parameterization configured `Plus` adds coordinatewise over the full
ambient space. -/
theorem gradientProblem_plus_identity_and_pointwise (p : GradientProblem)
    (x delta : List ℚ) (hx : x.length = p.NumParameters)
    (hretr : ∀ param, p.parameterization = some param →
      param.plus x (List.replicate p.NumLocalParameters 0) = x) :
    p.Plus x (List.replicate p.NumLocalParameters 0) = x ∧
    (p.parameterization = none → ∀ i, i < x.length → i < delta.length →
      (p.Plus x delta).getD i 0 = x.getD i 0 + delta.getD i 0) := by
  cases hpar : p.parameterization with
  | some param =>
      refine ⟨?_, ?_⟩
      · simpa [GradientProblem.Plus, hpar] using hretr param hpar
      · intro hnone
        exact absurd hnone (by simp)
  | none =>
      refine ⟨?_, ?_⟩
      · have hn : p.NumLocalParameters = x.length := by
          rw [hx]
          simp [GradientProblem.NumLocalParameters,
            GradientProblem.NumParameters, hpar]
        rw [hn]
        simp [GradientProblem.Plus, hpar, zipWith_add_replicate_zero]
      · intro _ i hi hd
        simpa [GradientProblem.Plus, hpar] using
          zipWith_add_getD x delta i hi hd

/-- Witness for C6 over `gpPlain` (no parameterization), `x = [1, 2]`,
`delta = [5, 6]`. -/
theorem gradientProblem_plus_witness :
    ([1, 2] : List ℚ).length = gpPlain.NumParameters ∧
    (gpPlain.Plus [1, 2] (List.replicate gpPlain.NumLocalParameters 0) =
        [1, 2] ∧
      (gpPlain.parameterization = none →
        ∀ i, i < ([1, 2] : List ℚ).length → i < ([5, 6] : List ℚ).length →
        (gpPlain.Plus [1, 2] [5, 6]).getD i 0 =
          ([1, 2] : List ℚ).getD i 0 + ([5, 6] : List ℚ).getD i 0)) :=
  ⟨rfl, gradientProblem_plus_identity_and_pointwise gpPlain [1, 2] [5, 6] rfl
    (fun param h => Option.noConfusion h)⟩

/-- Auxiliary: recording a time under a label increments that label's call
count by one. -/
theorem lookupStats_updateStats_self (l : List (String × CallStatistics))
    (label : String) (t : ℚ) :
    (lookupStats (updateStats l label t) label).calls =
      (lookupStats l label).calls + 1 := by
  induction l with
  | nil => simp [updateStats, lookupStats]
  | cons hd rest ih =>
    obtain ⟨k, c⟩ := hd
    by_cases hk : k = label
    · subst hk
      simp [updateStats, lookupStats]
    · simp [updateStats, lookupStats, hk, ih]

/-- Auxiliary: recording a time under one label leaves every other label's
statistics unchanged. -/
theorem lookupStats_updateStats_ne (l : List (String × CallStatistics))
    (label other : String) (t : ℚ) (h : other ≠ label) :
    lookupStats (updateStats l other t) label = lookupStats l label := by
  induction l with
  | nil => simp [updateStats, lookupStats, h]
  | cons hd rest ih =>
    obtain ⟨k, c⟩ := hd
    by_cases hk : k = other
    · subst hk
      simp [updateStats, lookupStats, h]
    · simp [updateStats, lookupStats, hk, ih]

/-- C10: only `Evaluate` touches the telemetry state: any sequence of the
other member functions leaves `Statistics()` unchanged, while every
non-fatal `Evaluate` call increments the aggregate "Evaluator::Total" call
count. -/
theorem only_evaluate_mutates_statistics (e : GradientProblemEvaluator)
    (ops : List ConstOp) (state residuals : List ℚ)
    (gradientRequested : Bool) (tTotal tCall : ℚ) :
    (ops.foldl applyConstOp e).Statistics = e.Statistics ∧
    (lookupStats
        ((evalStep e state residuals gradientRequested tTotal tCall).Statistics)
        "Evaluator::Total").calls =
      (lookupStats e.Statistics "Evaluator::Total").calls + 1 := by
  constructor
  · have hop : ∀ (f : GradientProblemEvaluator) (op : ConstOp),
        applyConstOp f op = f := by
      intro f op
      cases op <;> rfl
    induction ops generalizing e with
    | nil => rfl
    | cons op rest ih =>
        rw [List.foldl_cons, hop e op]
        exact ih e
  · show (lookupStats
        (updateStats
          (updateStats e.execution_summary
            (if gradientRequested then "Evaluator::Jacobian"
             else "Evaluator::Residual") tCall)
          "Evaluator::Total" tTotal) "Evaluator::Total").calls =
      (lookupStats e.execution_summary "Evaluator::Total").calls + 1
    rw [lookupStats_updateStats_self, lookupStats_updateStats_ne]
    cases gradientRequested <;> decide

end CeresGP
